import Mathlib

/-!
Shallow embedding of the radix connection layer (src/radix.go) and proofs
of the specification's claims about it.

The Go file wraps a `net.Conn` in a synchronized connection (`connWrap`)
with a buffered reader/writer (`bufio.ReadWriter`), a mutex guarding `Do`,
raw `Encode`/`Decode` primitives with automatic close on `net.Error`, a
restricted view (`connLimited`) returned by `NetConn()`, a deadline-setting
wrapper (`timeoutConn`), and two factories (`Dial`, `DialTimeout`).

Modelling conventions:
- bytes are `Nat`, byte slices are `List Nat`;
- a Go `error` value is `Option Err`, where `Err` records the message and
  whether the dynamic type implements `net.Error` (the only thing the code
  inspects, via the `err.(net.Error)` type assertion);
- the underlying `net.Conn` is a state record `NetConn` (closed flag,
  absolute deadline, bytes still readable, bytes written so far);
- `bufio.ReadWriter` is a pair of buffers `Brw`;
- codec values (`resp.Marshaler` / `resp.Unmarshaler`) are opaque functions
  acting on the buffer they are handed, returning a Go error;
- time is an explicit `Int` parameter (`time.Duration` and `time.Time`
  collapse to integers, which is faithful for the comparisons the code does).
-/

/-- A Go error value: its message and whether its dynamic type implements
the `net.Error` interface (what the `err.(net.Error)` assertions test). -/
structure Err where
  isNet : Bool
  msg : String
deriving DecidableEq, Repr

/-- Whether a Go `error` (possibly nil) is a `net.Error`; mirrors
`if _, ok := err.(net.Error); ok` — a nil error fails the assertion. -/
def isNetO : Option Err → Bool
  | none => false
  | some e => e.isNet

/-- State of an underlying `net.Conn`: closed flag, currently set absolute
deadline (none when unset), bytes the peer has made available to read, and
bytes written to the wire so far. -/
structure NetConn where
  closed : Bool
  deadline : Option Int
  toRead : List Nat
  written : List Nat
deriving DecidableEq, Repr

/-- The error a closed TCP connection reports from I/O and close calls;
it is delivered inside a `*net.OpError`, which implements `net.Error`. -/
def useOfClosedErr : Err := ⟨true, "use of closed network connection"⟩

/-- The two buffers of the `bufio.ReadWriter` built by `NewConn`. -/
structure Brw where
  readBuf : List Nat
  writeBuf : List Nat
deriving DecidableEq, Repr

/-- The `connWrap` struct: embedded `net.Conn`, the shared
`bufio.ReadWriter`, and the `doL sync.Mutex` (held or not). The conn field
is generic because Go's `connWrap` embeds the `net.Conn` interface; each
call site instantiates it with the concrete stream it wraps. -/
structure ConnWrapG (σ : Type) where
  conn : σ
  brw : Brw
  doL : Bool
deriving DecidableEq, Repr

/-- The synchronized connection over a plain stream. -/
abbrev ConnWrap := ConnWrapG NetConn

/-- The `NewConn` factory: fresh empty buffers, mutex initially free
(`bufio.NewReadWriter(bufio.NewReader(conn), bufio.NewWriter(conn))`). -/
def NewConn {σ : Type} (conn : σ) : ConnWrapG σ :=
  { conn := conn, brw := { readBuf := [], writeBuf := [] }, doL := false }

/-- A `resp.Marshaler`: opaque codec writing into the buffered write side;
given the current write buffer it returns its error and the new buffer. -/
structure Marshaler where
  run : List Nat → Option Err × List Nat

/-- A `resp.Unmarshaler`: opaque codec reading from the buffered read side;
given the readable bytes it returns its error and the bytes left over. -/
structure Unmarshaler where
  run : List Nat → Option Err × List Nat

/-- Promoted `cw.Conn.Close()` as used inside Encode/Decode, where its
return value is discarded: marks the underlying conn closed. -/
def connClose (cw : ConnWrap) : ConnWrap :=
  { cw with conn := { cw.conn with closed := true } }

/-- The `cw.brw.Flush()` step: push the buffered write side to the
underlying conn. On a closed conn the write fails with a `net.Error`;
otherwise the buffer's bytes are appended to the wire and the buffer is
emptied. -/
def connFlush (cw : ConnWrap) : Option Err × ConnWrap :=
  if cw.conn.closed then (some useOfClosedErr, cw)
  else (none,
    { cw with
      conn := { cw.conn with written := cw.conn.written ++ cw.brw.writeBuf },
      brw := { cw.brw with writeBuf := [] } })

/-- The body of `connWrap.Encode`: run `m.MarshalRESP(cw.brw)`; if the
marshal errored return that error (no flush); otherwise flush and return
the flush error. The deferred check closes the conn whenever the error
being returned is a `net.Error`. -/
def connEncode (m : Marshaler) (cw : ConnWrap) : Option Err × ConnWrap :=
  let mres := m.run cw.brw.writeBuf
  let cw1 : ConnWrap := { cw with brw := { cw.brw with writeBuf := mres.2 } }
  match mres.1 with
  | some e => (some e, if e.isNet then connClose cw1 else cw1)
  | none =>
    let fres := connFlush cw1
    match fres.1 with
    | some e => (some e, if e.isNet then connClose fres.2 else fres.2)
    | none => (none, fres.2)

/-- The body of `connWrap.Decode`: run `u.UnmarshalRESP(cw.brw.Reader)`;
if the error is a `net.Error` close the conn; return the error either way. -/
def connDecode (u : Unmarshaler) (cw : ConnWrap) : Option Err × ConnWrap :=
  let ures := u.run cw.brw.readBuf
  let cw1 : ConnWrap := { cw with brw := { cw.brw with readBuf := ures.2 } }
  (ures.1, if isNetO ures.1 then connClose cw1 else cw1)

/-- The fresh inner handle `connWrap.Do` builds for the action: shares the
embedded conn and the `bufio.ReadWriter`, and its `doL` mutex is the Go
zero value, i.e. unlocked (`inner := &connWrap{Conn: cw.Conn, brw: cw.brw}`). -/
def mkInner (cw : ConnWrap) : ConnWrap :=
  { conn := cw.conn, brw := cw.brw, doL := false }

/-- Syntax of the actions a caller can hand to `Do`. An action's `Run`
method gets a `Conn` and may return a result directly, call `Encode` or
`Decode` on it, call `Do` on it (the nesting the comment in `connWrap.Do`
is about), or sequence two steps, aborting on the first error, as Go code
using early returns does. -/
inductive RAction where
  | ret (e : Option Err)
  | encode (m : Marshaler)
  | decode (u : Unmarshaler)
  | doNested (a : RAction)
  | andThen (a b : RAction)

/-- Single-threaded semantics of `a.Run(cw)`, the action running against
the handle `cw`. `none` is a deadlock: taking `doL.Lock()` on a mutex this
execution already holds never returns. The `doNested` case is the body of
`connWrap.Do`: it deadlocks if this handle's mutex is held, else holds it
for the duration, builds `mkInner`, runs the action against the inner
handle, and propagates the shared state back (the pointers `Conn` and
`brw` are shared, the mutex is per-handle). -/
def runAction : ConnWrap → RAction → Option (Option Err × ConnWrap)
  | cw, .ret e => some (e, cw)
  | cw, .encode m => some (connEncode m cw)
  | cw, .decode u => some (connDecode u cw)
  | cw, .andThen a b =>
    match runAction cw a with
    | none => none
    | some (some e, cw') => some (some e, cw')
    | some (none, cw') => runAction cw' b
  | cw, .doNested a =>
    if cw.doL then none
    else
      match runAction (mkInner cw) a with
      | none => none
      | some (r, cw') => some (r, { conn := cw'.conn, brw := cw'.brw, doL := cw.doL })

/-- `connWrap.Do`: lock `doL`, build the fresh inner handle, run the
action's `Run` against it, unlock, and return the action's result
verbatim. Identical to the `doNested` case of `runAction`. -/
def connDo (cw : ConnWrap) (a : RAction) : Option (Option Err × ConnWrap) :=
  runAction cw (.doNested a)

/-- The `connLimited` wrapper around `net.Conn` that `connWrap.NetConn`
returns. -/
structure ConnLimited where
  conn : NetConn
deriving DecidableEq, Repr

/-- The error `connLimited.Read` builds with `errors.New` (a plain error,
not a `net.Error`). -/
def readNotAllowedErr : Err :=
  ⟨false, "Read not allowed to be called on net.Conn returned from radix"⟩

/-- The error `connLimited.Write` builds with `errors.New`. -/
def writeNotAllowedErr : Err :=
  ⟨false, "Write not allowed to be called on net.Conn returned from radix"⟩

/-- The error `connLimited.Close` builds with `errors.New`. -/
def closeNotAllowedErr : Err :=
  ⟨false, "Close not allowed to be called on net.Conn returned from radix"⟩

/-- `connLimited.Read`: returns 0 bytes and the usage error; the embedded
conn is left exactly as it was. -/
def ConnLimited.Read (cl : ConnLimited) (_b : List Nat) : (Nat × Option Err) × ConnLimited :=
  ((0, some readNotAllowedErr), cl)

/-- `connLimited.Write`: returns 0 bytes and the usage error; the embedded
conn is left exactly as it was. -/
def ConnLimited.Write (cl : ConnLimited) (_b : List Nat) : (Nat × Option Err) × ConnLimited :=
  ((0, some writeNotAllowedErr), cl)

/-- `connLimited.Close`: returns the usage error; the embedded conn is
left exactly as it was. -/
def ConnLimited.Close (cl : ConnLimited) : Option Err × ConnLimited :=
  (some closeNotAllowedErr, cl)

/-- `connWrap.NetConn`: wraps the underlying conn in `connLimited`. -/
def connNetConn (cw : ConnWrap) : ConnLimited :=
  ⟨cw.conn⟩

/-- The `timeoutConn` struct: embedded `net.Conn` plus the configured
`time.Duration` (an `int64`, so possibly zero or negative). -/
structure TimeoutConn where
  conn : NetConn
  timeout : Int
deriving DecidableEq, Repr

/-- `timeoutConn.setDeadline`: when the timeout is positive, set the
conn's absolute deadline to now plus the timeout; otherwise do nothing. -/
def TimeoutConn.setDeadline (tc : TimeoutConn) (now : Int) : TimeoutConn :=
  if tc.timeout > 0 then
    { tc with conn := { tc.conn with deadline := some (now + tc.timeout) } }
  else tc

/-- A read on the raw `net.Conn`: a closed conn fails with the
`net.Error`-implementing closed-connection error; otherwise up to `n`
available bytes are consumed. -/
def NetConn.rawRead (c : NetConn) (n : Nat) : (Nat × Option Err) × NetConn :=
  if c.closed then ((0, some useOfClosedErr), c)
  else ((min n c.toRead.length, none), { c with toRead := c.toRead.drop n })

/-- A write on the raw `net.Conn`: a closed conn fails with the
`net.Error`-implementing closed-connection error; otherwise the bytes go
out on the wire. -/
def NetConn.rawWrite (c : NetConn) (b : List Nat) : (Nat × Option Err) × NetConn :=
  if c.closed then ((0, some useOfClosedErr), c)
  else ((b.length, none), { c with written := c.written ++ b })

/-- `timeoutConn.Read`: `tc.setDeadline()` first, then the underlying
read, whose count, error and state changes pass through untouched. -/
def TimeoutConn.Read (tc : TimeoutConn) (now : Int) (n : Nat) : (Nat × Option Err) × TimeoutConn :=
  let tc1 := tc.setDeadline now
  let rres := tc1.conn.rawRead n
  (rres.1, { tc1 with conn := rres.2 })

/-- `timeoutConn.Write`: `tc.setDeadline()` first, then the underlying
write, whose count, error and state changes pass through untouched. -/
def TimeoutConn.Write (tc : TimeoutConn) (now : Int) (b : List Nat) : (Nat × Option Err) × TimeoutConn :=
  let tc1 := tc.setDeadline now
  let wres := tc1.conn.rawWrite b
  (wres.1, { tc1 with conn := wres.2 })

/-- `Dial`: call `net.Dial` (the environment, passed as an oracle); on
failure return `(nil, err)` — no connection object; on success wrap the
stream unconditionally in `NewConn`. -/
def Dial (netDial : String → String → Except Err NetConn) (network addr : String) :
    Except Err (ConnWrapG NetConn) :=
  match netDial network addr with
  | .error e => .error e
  | .ok c => .ok (NewConn c)

/-- `DialTimeout`: call `net.DialTimeout` with the caller's timeout (the
environment, passed as an oracle); on failure return `(nil, err)`; on
success interpose `timeoutConn` configured with that same timeout, then
wrap in `NewConn`. -/
def DialTimeout (netDialTimeout : String → String → Int → Except Err NetConn)
    (network addr : String) (timeout : Int) : Except Err (ConnWrapG TimeoutConn) :=
  match netDialTimeout network addr timeout with
  | .error e => .error e
  | .ok c => .ok (NewConn { conn := c, timeout := timeout })

/-- Phase of one goroutine with respect to a single top-level `Do` call on
one `connWrap`: not yet called, inside the `doL`-protected critical
section, or returned. -/
inductive DoPhase where
  | idle
  | inCrit
  | finished
deriving DecidableEq, Repr

/-- Global state of `n` goroutines contending on one `connWrap`'s `doL`
mutex: which goroutine (if any) holds the mutex, and each goroutine's
phase. -/
structure LockSt (n : Nat) where
  owner : Option (Fin n)
  phase : Fin n → DoPhase

/-- Initial state: mutex free, nobody has called `Do` yet. -/
def lockInit (n : Nat) : LockSt n :=
  { owner := none, phase := fun _ => DoPhase.idle }

/-- Interleaving semantics of `connWrap.Do`'s locking discipline
(`cw.doL.Lock()` on entry, `defer cw.doL.Unlock()` on exit): a goroutine
enters the critical section only by acquiring the free mutex, and releases
it when its call returns. -/
inductive lockStep {n : Nat} : LockSt n → LockSt n → Prop where
  | lock (s : LockSt n) (t : Fin n) (h1 : s.owner = none) (h2 : s.phase t = DoPhase.idle) :
      lockStep s { owner := some t, phase := Function.update s.phase t DoPhase.inCrit }
  | unlock (s : LockSt n) (t : Fin n) (h1 : s.owner = some t) (h2 : s.phase t = DoPhase.inCrit) :
      lockStep s { owner := none, phase := Function.update s.phase t DoPhase.finished }

/-- States reachable from the initial state by any interleaving of `Do`
calls. -/
def lockReachable {n : Nat} (s : LockSt n) : Prop :=
  Relation.ReflTransGen lockStep (lockInit n) s

/-- The mutex invariant: a goroutine inside `Do`'s critical section is the
mutex owner. -/
def lockInv {n : Nat} (s : LockSt n) : Prop :=
  ∀ t, s.phase t = DoPhase.inCrit → s.owner = some t

/-- The state of two goroutines in which goroutine 0 has just entered
`Do`'s critical section. -/
def lockS1 : LockSt 2 :=
  { owner := some 0, phase := Function.update (lockInit 2).phase 0 DoPhase.inCrit }

/-- Sample transport-level error (`net.Error` dynamic type). -/
def netErrX : Err := ⟨true, "i/o timeout"⟩

/-- Sample protocol-level error (plain error, not a `net.Error`). -/
def protoErrX : Err := ⟨false, "resp: malformed reply"⟩

/-- Sample marshaler failing with a transport-level error. -/
def mNet : Marshaler := ⟨fun w => (some netErrX, w)⟩

/-- Sample marshaler failing with a protocol-level error after writing a
partial byte. -/
def mProto : Marshaler := ⟨fun w => (some protoErrX, w ++ [9])⟩

/-- Sample marshaler succeeding and buffering two bytes. -/
def mOk : Marshaler := ⟨fun w => (none, w ++ [1, 2])⟩

/-- Sample unmarshaler failing with a transport-level error. -/
def uNet : Unmarshaler := ⟨fun r => (some netErrX, r)⟩

/-- Sample unmarshaler failing with a protocol-level error. -/
def uProto : Unmarshaler := ⟨fun r => (some protoErrX, r)⟩

/-- Sample open underlying conn with two readable bytes. -/
def c0 : NetConn := ⟨false, none, [7, 8], []⟩

/-- Sample synchronized connection over the open conn. -/
def cw0 : ConnWrap := NewConn c0

/-- A synchronized connection whose underlying conn has been closed
(`Close()` was called). -/
def cwClosed : ConnWrap := NewConn ⟨true, none, [], []⟩

/-- Sample deadline wrapper with a positive timeout. -/
def tcPos : TimeoutConn := ⟨c0, 5⟩

/-- Sample deadline wrapper with a zero timeout. -/
def tcZero : TimeoutConn := ⟨c0, 0⟩

/-- Sample `net.Dial` environment in which the dial fails. -/
def dialFail : String → String → Except Err NetConn := fun _ _ => .error netErrX

/-- Sample `net.Dial` environment in which the dial succeeds. -/
def dialOk : String → String → Except Err NetConn := fun _ _ => .ok c0

/-- Sample `net.DialTimeout` environment in which the dial fails. -/
def dialTFail : String → String → Int → Except Err NetConn := fun _ _ _ => .error netErrX

/-- Sample `net.DialTimeout` environment in which the dial succeeds. -/
def dialTOk : String → String → Int → Except Err NetConn := fun _ _ _ => .ok c0

theorem connClose_doL (cw : ConnWrap) : (connClose cw).doL = cw.doL := rfl

theorem connFlush_doL (cw : ConnWrap) : ((connFlush cw).2).doL = cw.doL := by
  unfold connFlush
  split <;> rfl

theorem connEncode_doL (m : Marshaler) (cw : ConnWrap) :
    ((connEncode m cw).2).doL = cw.doL := by
  unfold connEncode
  cases hm : (m.run cw.brw.writeBuf).1 with
  | some e =>
    simp only [hm]
    split <;> rfl
  | none =>
    simp only [hm]
    split
    · split <;> simp [connFlush_doL, connClose_doL]
    · simp [connFlush_doL]

theorem connDecode_doL (u : Unmarshaler) (cw : ConnWrap) :
    ((connDecode u cw).2).doL = cw.doL := by
  unfold connDecode
  by_cases h : isNetO (u.run cw.brw.readBuf).1 = true
  · simp [h, connClose_doL]
  · simp [h]

theorem runAction_doL_eq {a : RAction} :
    ∀ {cw : ConnWrap} {r : Option Err} {cw' : ConnWrap},
      runAction cw a = some (r, cw') → cw'.doL = cw.doL := by
  induction a with
  | ret e =>
    intro cw r cw' h
    simp [runAction] at h
    rw [← h.2]
  | encode m =>
    intro cw r cw' h
    simp [runAction] at h
    have : (connEncode m cw).2 = cw' := by rw [h]
    rw [← this, connEncode_doL]
  | decode u =>
    intro cw r cw' h
    simp [runAction] at h
    have : (connDecode u cw).2 = cw' := by rw [h]
    rw [← this, connDecode_doL]
  | doNested a ih =>
    intro cw r cw' h
    unfold runAction at h
    by_cases hd : cw.doL
    · simp [hd] at h
    · simp only [hd, if_false, Bool.false_eq_true] at h
      cases hi : runAction (mkInner cw) a with
      | none => rw [hi] at h; cases h
      | some p =>
        rw [hi] at h
        cases h
        simp [Bool.not_eq_true] at hd
        simp [hd]
  | andThen a b iha ihb =>
    intro cw r cw' h
    unfold runAction at h
    cases ha : runAction cw a with
    | none => rw [ha] at h; cases h
    | some p =>
      rw [ha] at h
      obtain ⟨ra, cwa⟩ := p
      cases ra with
      | some e =>
        simp at h
        rw [← h.2, iha ha]
      | none =>
        simp at h
        rw [ihb h, iha ha]

theorem runAction_total (a : RAction) :
    ∀ (cw : ConnWrap), cw.doL = false → (runAction cw a).isSome := by
  induction a with
  | ret e => intro cw _; simp [runAction]
  | encode m => intro cw _; simp [runAction]
  | decode u => intro cw _; simp [runAction]
  | doNested a ih =>
    intro cw h
    unfold runAction
    simp only [h, Bool.false_eq_true, if_false]
    have := ih (mkInner cw) rfl
    cases hi : runAction (mkInner cw) a with
    | none => rw [hi] at this; cases this
    | some p => simp
  | andThen a b iha ihb =>
    intro cw h
    unfold runAction
    cases ha : runAction cw a with
    | none =>
      have := iha cw h
      rw [ha] at this
      cases this
    | some p =>
      obtain ⟨ra, cwa⟩ := p
      cases ra with
      | some e => simp
      | none =>
        have hd : cwa.doL = false := by rw [runAction_doL_eq ha, h]
        have := ihb cwa hd
        cases hb : runAction cwa b with
        | none => rw [hb] at this; cases this
        | some q => simp [hb]

theorem lockStep_preserves_inv {n : Nat} {s s' : LockSt n}
    (hi : lockInv s) (hs : lockStep s s') : lockInv s' := by
  cases hs with
  | lock t h1 h2 =>
    intro t' ht'
    by_cases he : t' = t
    · subst he; rfl
    · have hp : Function.update s.phase t DoPhase.inCrit t' = DoPhase.inCrit := ht'
      rw [Function.update_noteq he] at hp
      have := hi t' hp
      rw [h1] at this
      cases this
  | unlock t h1 h2 =>
    intro t' ht'
    by_cases he : t' = t
    · subst he
      have hp : Function.update s.phase t' DoPhase.finished t' = DoPhase.inCrit := ht'
      rw [Function.update_same] at hp
      cases hp
    · have hp : Function.update s.phase t DoPhase.finished t' = DoPhase.inCrit := ht'
      rw [Function.update_noteq he] at hp
      have := hi t' hp
      rw [h1] at this
      injection this with hh
      exact absurd hh.symm he

theorem lockReachable_inv {n : Nat} {s : LockSt n} (h : lockReachable s) : lockInv s := by
  unfold lockReachable at h
  induction h with
  | refl => intro t ht; cases ht
  | tail _ hst ih => exact lockStep_preserves_inv ih hst

/-- C2: `connWrap.Do` builds a second handle sharing the outer handle's
underlying conn and `bufio.ReadWriter`, runs the action's `Run` against
that inner handle, and returns the action's result verbatim (success or
failure), with no timeout and no retry added: the pair `Do` returns is
exactly what one run of the action produced, the lock being released on
return (`defer cw.doL.Unlock()`). -/
theorem do_runs_action_on_shared_inner (cw : ConnWrap) (a : RAction) (h : cw.doL = false) :
    (mkInner cw).conn = cw.conn ∧ (mkInner cw).brw = cw.brw ∧ (mkInner cw).doL = false
  ∧ ∀ r cw', runAction (mkInner cw) a = some (r, cw') →
      connDo cw a = some (r, { conn := cw'.conn, brw := cw'.brw, doL := false }) := by
  refine ⟨rfl, rfl, rfl, ?_⟩
  intro r cw' hr
  unfold connDo runAction
  simp [h, hr]

/-- Witness for C2 at a concrete connection and action. -/
theorem do_runs_action_on_shared_inner_witness :
    cw0.doL = false
  ∧ runAction (mkInner cw0) (RAction.ret (some protoErrX)) = some (some protoErrX, mkInner cw0)
  ∧ connDo cw0 (RAction.ret (some protoErrX)) =
      some (some protoErrX, { conn := (mkInner cw0).conn, brw := (mkInner cw0).brw, doL := false }) :=
  ⟨rfl, rfl, (do_runs_action_on_shared_inner cw0 (RAction.ret (some protoErrX)) rfl).2.2.2
    (some protoErrX) (mkInner cw0) rfl⟩

/-- C3: the inner handle `Do` hands to the action carries a distinct,
freshly allocated, unlocked mutex (the Go zero value of `sync.Mutex` in
the freshly built `connWrap` literal), so an action that itself calls `Do`
on the handle it was given completes without deadlock: the run is
`some _`, never the deadlock outcome `none`. -/
theorem nested_do_no_deadlock (cw : ConnWrap) (a : RAction) (h : cw.doL = false) :
    (mkInner cw).doL = false ∧ connDo cw (RAction.doNested a) ≠ none := by
  refine ⟨rfl, ?_⟩
  have ht := runAction_total (RAction.doNested (RAction.doNested a)) cw h
  unfold connDo
  intro hc
  rw [hc] at ht
  cases ht

/-- Witness for C3 at a concrete connection and nested action. -/
theorem nested_do_no_deadlock_witness :
    cw0.doL = false ∧ connDo cw0 (RAction.doNested (RAction.ret none)) ≠ none :=
  ⟨rfl, (nested_do_no_deadlock cw0 (RAction.ret none) rfl).2⟩

/-- C4: mutual exclusion of `connWrap.Do`'s critical section. In every
state reachable by interleaving `Do` calls from `n` goroutines on one
connection, no two distinct goroutines are simultaneously inside the
`doL`-protected region. -/
theorem do_mutual_exclusion {n : Nat} {s : LockSt n} (h : lockReachable s)
    (t1 t2 : Fin n) (h1 : s.phase t1 = DoPhase.inCrit) (h2 : s.phase t2 = DoPhase.inCrit) :
    t1 = t2 := by
  have hi := lockReachable_inv h
  have o1 := hi t1 h1
  have o2 := hi t2 h2
  rw [o1] at o2
  injection o2

/-- Witness for C4: the state in which goroutine 0 of 2 has just entered
the critical section is reachable, and the theorem applies to it. -/
theorem do_mutual_exclusion_witness :
    lockReachable lockS1 ∧ (0 : Fin 2) = 0 := by
  have hr : lockReachable lockS1 :=
    Relation.ReflTransGen.single (lockStep.lock (lockInit 2) 0 rfl rfl)
  refine ⟨hr, do_mutual_exclusion hr 0 0 ?_ ?_⟩ <;>
    simp [lockS1, Function.update_same]

/-- C5 is contradicted by the code: `connWrap` records no closed state, so
after the underlying conn is closed, `Do` with an action whose `Run`
returns nil still returns nil instead of a closed-connection error (the
`Client` doc in the source promises that every call after `Close` errors). -/
theorem do_after_close_returns_nil :
    cwClosed.conn.closed = true
  ∧ connDo cwClosed (RAction.ret none) = some (none, cwClosed) := by
  exact ⟨rfl, rfl⟩

/-- C6: `connWrap.NetConn` wraps the underlying conn in `connLimited`;
`Read` and `Write` on it transfer zero bytes and fail with the
usage-violation errors, `Close` fails with its usage-violation error, all
three are plain errors (not `net.Error`), and none of them touches the
underlying stream, which is returned unchanged. -/
theorem netconn_restricted_view (cw : ConnWrap) (b : List Nat) :
    (connNetConn cw).Read b = ((0, some readNotAllowedErr), connNetConn cw)
  ∧ (connNetConn cw).Write b = ((0, some writeNotAllowedErr), connNetConn cw)
  ∧ (connNetConn cw).Close = (some closeNotAllowedErr, connNetConn cw)
  ∧ readNotAllowedErr.isNet = false
  ∧ writeNotAllowedErr.isNet = false
  ∧ closeNotAllowedErr.isNet = false
  ∧ (((connNetConn cw).Read b).2).conn = cw.conn
  ∧ (((connNetConn cw).Write b).2).conn = cw.conn
  ∧ (((connNetConn cw).Close).2).conn = cw.conn :=
  ⟨rfl, rfl, rfl, rfl, rfl, rfl, rfl, rfl, rfl⟩

theorem connFlush_of_closed {cw : ConnWrap} (h : cw.conn.closed = true) :
    connFlush cw = (some useOfClosedErr, cw) := by
  unfold connFlush
  simp [h]

theorem connFlush_of_open {cw : ConnWrap} (h : cw.conn.closed = false) :
    connFlush cw = (none,
      { cw with
        conn := { cw.conn with written := cw.conn.written ++ cw.brw.writeBuf },
        brw := { cw.brw with writeBuf := [] } }) := by
  unfold connFlush
  simp [h]

theorem connEncode_of_marshal_err {m : Marshaler} {cw : ConnWrap} {e : Err}
    (h : (m.run cw.brw.writeBuf).1 = some e) :
    connEncode m cw = (some e,
      if e.isNet then
        connClose { cw with brw := { cw.brw with writeBuf := (m.run cw.brw.writeBuf).2 } }
      else { cw with brw := { cw.brw with writeBuf := (m.run cw.brw.writeBuf).2 } }) := by
  unfold connEncode
  simp only [h]

theorem connEncode_of_marshal_ok {m : Marshaler} {cw : ConnWrap}
    (h : (m.run cw.brw.writeBuf).1 = none) :
    connEncode m cw =
      match (connFlush { cw with brw := { cw.brw with writeBuf := (m.run cw.brw.writeBuf).2 } }).1 with
      | some e => (some e,
          if e.isNet then
            connClose (connFlush { cw with brw := { cw.brw with writeBuf := (m.run cw.brw.writeBuf).2 } }).2
          else (connFlush { cw with brw := { cw.brw with writeBuf := (m.run cw.brw.writeBuf).2 } }).2)
      | none => (none, (connFlush { cw with brw := { cw.brw with writeBuf := (m.run cw.brw.writeBuf).2 } }).2) := by
  unfold connEncode
  simp only [h]

/-- C1: transport-fault policy of `Encode`/`Decode`. Whenever the returned
error is a `net.Error` (transport-level), the connection has been closed
as a side effect before the call returns; whenever it is not (nil or
protocol-level), the connection's closed state is untouched. The returned
error is the original one verbatim: a failing marshal's error is returned
as is (and a succeeding marshal hands over exactly the flush error), and
`Decode` returns exactly the unmarshaler's error. -/
theorem encode_decode_transport_fault_policy (m : Marshaler) (u : Unmarshaler) (cw : ConnWrap) :
    (isNetO (connEncode m cw).1 = true → ((connEncode m cw).2).conn.closed = true)
  ∧ (isNetO (connEncode m cw).1 = false → ((connEncode m cw).2).conn.closed = cw.conn.closed)
  ∧ (∀ e, (m.run cw.brw.writeBuf).1 = some e → (connEncode m cw).1 = some e)
  ∧ ((m.run cw.brw.writeBuf).1 = none →
      (connEncode m cw).1 =
        (connFlush { cw with brw := { cw.brw with writeBuf := (m.run cw.brw.writeBuf).2 } }).1)
  ∧ (isNetO (connDecode u cw).1 = true → ((connDecode u cw).2).conn.closed = true)
  ∧ (isNetO (connDecode u cw).1 = false → ((connDecode u cw).2).conn.closed = cw.conn.closed)
  ∧ (connDecode u cw).1 = (u.run cw.brw.readBuf).1 := by
  have hdec : connDecode u cw =
      ((u.run cw.brw.readBuf).1,
        if isNetO (u.run cw.brw.readBuf).1 then
          connClose { cw with brw := { cw.brw with readBuf := (u.run cw.brw.readBuf).2 } }
        else { cw with brw := { cw.brw with readBuf := (u.run cw.brw.readBuf).2 } }) := rfl
  refine ⟨?_, ?_, ?_, ?_, ?_, ?_, ?_⟩
  · intro h
    cases hm : (m.run cw.brw.writeBuf).1 with
    | some e =>
      rw [connEncode_of_marshal_err hm] at h ⊢
      simp only [isNetO] at h
      simp [h, connClose]
    | none =>
      rw [connEncode_of_marshal_ok hm] at h ⊢
      cases hc : cw.conn.closed with
      | true =>
        rw [connFlush_of_closed (by simpa using hc)] at h ⊢
        simp [useOfClosedErr, connClose]
      | false =>
        rw [connFlush_of_open (by simpa using hc)] at h ⊢
        simp [isNetO] at h
  · intro h
    cases hm : (m.run cw.brw.writeBuf).1 with
    | some e =>
      rw [connEncode_of_marshal_err hm] at h ⊢
      simp only [isNetO] at h
      simp [h]
    | none =>
      rw [connEncode_of_marshal_ok hm] at h ⊢
      cases hc : cw.conn.closed with
      | true =>
        rw [connFlush_of_closed (by simpa using hc)] at h ⊢
        simp [useOfClosedErr, isNetO] at h
      | false =>
        rw [connFlush_of_open (by simpa using hc)] at h ⊢
        simp [hc]
  · intro e hm
    rw [connEncode_of_marshal_err hm]
  · intro hm
    rw [connEncode_of_marshal_ok hm]
    cases hf : (connFlush { cw with brw := { cw.brw with writeBuf := (m.run cw.brw.writeBuf).2 } }).1 <;>
      simp [hf]
  · intro h
    rw [hdec] at h ⊢
    simp only at h
    simp [h, connClose]
  · intro h
    rw [hdec] at h ⊢
    simp only at h
    simp [h]
  · rw [hdec]

/-- Witness for C1: a transport-failing marshal closes the connection and
its error comes back verbatim; protocol-level codec failures leave the
closed state untouched, on both the encode and the decode side. -/
theorem encode_decode_transport_fault_policy_witness :
    (connEncode mNet cw0).1 = some netErrX
  ∧ ((connEncode mNet cw0).2).conn.closed = true
  ∧ ((connEncode mProto cw0).2).conn.closed = cw0.conn.closed
  ∧ ((connDecode uNet cw0).2).conn.closed = true
  ∧ ((connDecode uProto cw0).2).conn.closed = cw0.conn.closed :=
  ⟨(encode_decode_transport_fault_policy mNet uNet cw0).2.2.1 netErrX rfl,
   (encode_decode_transport_fault_policy mNet uNet cw0).1 (by decide),
   (encode_decode_transport_fault_policy mProto uProto cw0).2.1 (by decide),
   (encode_decode_transport_fault_policy mNet uNet cw0).2.2.2.2.1 (by decide),
   (encode_decode_transport_fault_policy mProto uProto cw0).2.2.2.2.2.1 (by decide)⟩

/-- C9: when the marshal step fails, `Encode` returns before `Flush`: the
marshal's error is returned, nothing was written to the underlying
stream, and the write buffer holds exactly what the marshal left there. -/
theorem encode_marshal_err_no_flush (m : Marshaler) (cw : ConnWrap) (e : Err)
    (h : (m.run cw.brw.writeBuf).1 = some e) :
    (connEncode m cw).1 = some e
  ∧ ((connEncode m cw).2).conn.written = cw.conn.written
  ∧ ((connEncode m cw).2).brw.writeBuf = (m.run cw.brw.writeBuf).2 := by
  rw [connEncode_of_marshal_err h]
  refine ⟨rfl, ?_, ?_⟩ <;> split <;> rfl

/-- Witness for C9 at a concrete failing marshaler. -/
theorem encode_marshal_err_no_flush_witness :
    (mProto.run cw0.brw.writeBuf).1 = some protoErrX
  ∧ (connEncode mProto cw0).1 = some protoErrX
  ∧ ((connEncode mProto cw0).2).conn.written = cw0.conn.written
  ∧ ((connEncode mProto cw0).2).brw.writeBuf = (mProto.run cw0.brw.writeBuf).2 :=
  ⟨rfl, (encode_marshal_err_no_flush mProto cw0 protoErrX rfl).1,
   (encode_marshal_err_no_flush mProto cw0 protoErrX rfl).2.1,
   (encode_marshal_err_no_flush mProto cw0 protoErrX rfl).2.2⟩

theorem rawRead_deadline (c : NetConn) (n : Nat) :
    ((c.rawRead n).2).deadline = c.deadline := by
  unfold NetConn.rawRead
  split <;> rfl

theorem rawWrite_deadline (c : NetConn) (b : List Nat) :
    ((c.rawWrite b).2).deadline = c.deadline := by
  unfold NetConn.rawWrite
  split <;> rfl

theorem setDeadline_pos {tc : TimeoutConn} (now : Int) (h : 0 < tc.timeout) :
    ((tc.setDeadline now).conn).deadline = some (now + tc.timeout) := by
  unfold TimeoutConn.setDeadline
  rw [if_pos h]

theorem setDeadline_nonpos {tc : TimeoutConn} (now : Int) (h : tc.timeout ≤ 0) :
    tc.setDeadline now = tc := by
  unfold TimeoutConn.setDeadline
  rw [if_neg (not_lt.mpr h)]

/-- C7: the deadline wrapper. With a positive configured duration, every
`Read` and every `Write` first sets the stream's absolute deadline to now
plus the duration and only then performs the underlying operation (whose
state the result carries); with a zero or negative duration, `setDeadline`
is a no-op, so no deadline is ever applied. In both cases the count and
error of the underlying operation — performed on the deadline-adjusted
stream — pass through unchanged, with no retry. -/
theorem timeout_deadline_policy (tc : TimeoutConn) (now : Int) (n : Nat) (b : List Nat) :
    (0 < tc.timeout →
        ((tc.Read now n).2).conn.deadline = some (now + tc.timeout)
      ∧ ((tc.Write now b).2).conn.deadline = some (now + tc.timeout))
  ∧ (tc.timeout ≤ 0 →
        tc.setDeadline now = tc
      ∧ ((tc.Read now n).2).conn.deadline = tc.conn.deadline
      ∧ ((tc.Write now b).2).conn.deadline = tc.conn.deadline)
  ∧ (tc.Read now n).1 = ((tc.setDeadline now).conn.rawRead n).1
  ∧ (tc.Write now b).1 = ((tc.setDeadline now).conn.rawWrite b).1 := by
  have hR : ((tc.Read now n).2).conn = ((tc.setDeadline now).conn.rawRead n).2 := rfl
  have hW : ((tc.Write now b).2).conn = ((tc.setDeadline now).conn.rawWrite b).2 := rfl
  refine ⟨?_, ?_, rfl, rfl⟩
  · intro h
    constructor
    · rw [hR, rawRead_deadline, setDeadline_pos now h]
    · rw [hW, rawWrite_deadline, setDeadline_pos now h]
  · intro h
    have hs := setDeadline_nonpos now h
    refine ⟨hs, ?_, ?_⟩
    · rw [hR, rawRead_deadline, hs]
    · rw [hW, rawWrite_deadline, hs]

/-- Witness for C7 at a positive and at a zero configured duration. -/
theorem timeout_deadline_policy_witness :
    (0 : Int) < tcPos.timeout
  ∧ ((tcPos.Read 100 1).2).conn.deadline = some (100 + tcPos.timeout)
  ∧ tcZero.timeout ≤ 0
  ∧ tcZero.setDeadline 100 = tcZero :=
  ⟨by decide,
   ((timeout_deadline_policy tcPos 100 1 []).1 (by decide)).1,
   by decide,
   ((timeout_deadline_policy tcZero 100 1 []).2.1 (by decide)).1⟩

/-- C8: both factories surface the connection-establishment error of the
underlying transport open unchanged, returning no connection object, with
no retry; on success each wraps the stream unconditionally in `NewConn`,
`DialTimeout` first interposing `timeoutConn` with the caller's duration. -/
theorem dial_factories_policy (d : String → String → Except Err NetConn)
    (dt : String → String → Int → Except Err NetConn) (network addr : String) (t : Int) :
    (∀ e, d network addr = .error e → Dial d network addr = .error e)
  ∧ (∀ c, d network addr = .ok c → Dial d network addr = .ok (NewConn c))
  ∧ (∀ e, dt network addr t = .error e → DialTimeout dt network addr t = .error e)
  ∧ (∀ c, dt network addr t = .ok c →
      DialTimeout dt network addr t = .ok (NewConn { conn := c, timeout := t })) := by
  refine ⟨?_, ?_, ?_, ?_⟩ <;> intro x hx <;> simp [Dial, DialTimeout, hx]

/-- Witness for C8 in a failing and in a succeeding dial environment. -/
theorem dial_factories_policy_witness :
    Dial dialFail "tcp" "127.0.0.1:6379" = .error netErrX
  ∧ Dial dialOk "tcp" "127.0.0.1:6379" = .ok (NewConn c0)
  ∧ DialTimeout dialTFail "tcp" "127.0.0.1:6379" 5 = .error netErrX
  ∧ DialTimeout dialTOk "tcp" "127.0.0.1:6379" 5 = .ok (NewConn { conn := c0, timeout := 5 }) :=
  ⟨(dial_factories_policy dialFail dialTFail "tcp" "127.0.0.1:6379" 5).1 netErrX rfl,
   (dial_factories_policy dialOk dialTOk "tcp" "127.0.0.1:6379" 5).2.1 c0 rfl,
   (dial_factories_policy dialFail dialTFail "tcp" "127.0.0.1:6379" 5).2.2.1 netErrX rfl,
   (dial_factories_policy dialOk dialTOk "tcp" "127.0.0.1:6379" 5).2.2.2 c0 rfl⟩

/-- C10: `DialTimeout`'s single duration argument is used twice: it is the
bound handed to the underlying `net.DialTimeout` call (the same `t` the
oracle receives) and, on success, it is installed verbatim as the
`timeoutConn` wrapper's per-operation read/write deadline duration. -/
theorem dialtimeout_single_duration (dt : String → String → Int → Except Err NetConn)
    (network addr : String) (t : Int) :
    DialTimeout dt network addr t =
      (match dt network addr t with
        | .error e => .error e
        | .ok c => .ok (NewConn { conn := c, timeout := t }))
  ∧ ∀ c, dt network addr t = .ok c →
      ∃ cw, DialTimeout dt network addr t = .ok cw ∧ cw.conn.timeout = t ∧ cw.conn.conn = c := by
  refine ⟨rfl, ?_⟩
  intro c h
  exact ⟨NewConn { conn := c, timeout := t }, by simp [DialTimeout, h], rfl, rfl⟩

/-- Witness for C10 in a succeeding dial environment at duration 7. -/
theorem dialtimeout_single_duration_witness :
    ∃ cw, DialTimeout dialTOk "tcp" "127.0.0.1:6379" 7 = .ok cw
      ∧ cw.conn.timeout = 7 ∧ cw.conn.conn = c0 :=
  (dialtimeout_single_duration dialTOk "tcp" "127.0.0.1:6379" 7).2 c0 rfl
